import Mathlib

/-!
Verification development for the Stina "Work Manager" extension
(todo/project/comment/subitem management with reminder scheduling).

The TypeScript sources are shallowly embedded:
* records become structures, `undefined`/`null` become `Option`
  (`Option (Option _)` where the source distinguishes the two),
* SQL tables become lists of row structures and each repository method
  becomes a pure function from the database state,
* machine numbers are `Int`/`Nat` (the quantities involved — epoch
  milliseconds, lead minutes, sort orders — stay far below 2^53, where
  JavaScript numbers are exact integers),
* the host scheduler is a list of jobs keyed by job id, and the
  scheduler-fire handler is a function returning its observable effects.
-/

namespace WorkExt

/-! ## String helpers

JavaScript string primitives modelled over `List Char`.  The repository
only ever feeds ASCII identifiers, ISO timestamps and short labels
through these helpers, where JavaScript UTF-16 semantics and this model
agree. -/

/-- Whitespace characters recognised by the model of `String.prototype.trim`. -/
def isWsChar (c : Char) : Bool :=
  c = ' ' || c = '\t' || c = '\n' || c = '\r'

/-- Model of `s.trim()`: strip leading and trailing whitespace. -/
def strTrim (s : String) : String :=
  String.mk (((s.data.dropWhile isWsChar).reverse.dropWhile isWsChar).reverse)

/-- Model of `s.length` (code units; all strings involved are ASCII). -/
def strLen (s : String) : Nat := s.data.length

/-- Model of `s.slice(0, n)`. -/
def strTake (s : String) (n : Nat) : String := String.mk (s.data.take n)

/-- Model of `s.slice(a, b)` for `a ≤ b`. -/
def strSlice (s : String) (a b : Nat) : String :=
  String.mk ((s.data.drop a).take (b - a))

/-- Does `pat` occur as a contiguous run inside `l`?  (Model of SQL
`LIKE '%pat%'` / `String.prototype.includes`.) -/
def containsRun : (l pat : List Char) → Bool
  | _, [] => true
  | [], _ :: _ => false
  | c :: rest, pat =>
    if (pat.isPrefixOf (c :: rest) : Bool) then true else containsRun rest pat

/-- Substring test on strings. -/
def strContains (s pat : String) : Bool := containsRun s.data pat.data

/-- Model of `s.toLowerCase()` (ASCII range only, which covers the data
this program stores). -/
def strLower (s : String) : String := String.mk (s.data.map Char.toLower)

/-- Boolean string order used for SQL `ORDER BY ... ASC` (byte order,
SQLite's BINARY collation) and `localeCompare ≤ 0` on the ASCII data in
play. -/
def strLeB (a b : String) : Bool := decide (¬ b < a)

/-- JavaScript truthiness of an optional string: `undefined`, `null` and
`""` are falsy. -/
def optStrTruthy : Option String → Bool
  | none => false
  | some s => s ≠ ""

/-! ## Sorting (insertion sort) used to model `ORDER BY` and `Array.sort` -/

/-- Insert `x` into `l` keeping elements `y` with `le y x` in front. -/
def insertLe (le : α → α → Bool) (x : α) : List α → List α
  | [] => [x]
  | y :: ys => if le x y then x :: y :: ys else y :: insertLe le x ys

/-- Sort `l` by the boolean relation `le`. -/
def sortByB (le : α → α → Bool) : List α → List α
  | [] => []
  | x :: xs => insertLe le x (sortByB le xs)

theorem mem_insertLe (le : α → α → Bool) (x a : α) (l : List α) :
    a ∈ insertLe le x l ↔ a = x ∨ a ∈ l := by
  induction l with
  | nil => simp [insertLe]
  | cons y ys ih =>
    by_cases h : le x y
    · simp [insertLe, h]
    · simp [insertLe, h, ih]
      tauto

theorem mem_sortByB (le : α → α → Bool) (a : α) (l : List α) :
    a ∈ sortByB le l ↔ a ∈ l := by
  induction l with
  | nil => simp [sortByB]
  | cons x xs ih => simp [sortByB, mem_insertLe, ih]

/-! ## Civil-calendar arithmetic

Conversions between days-since-epoch and (year, month, day), used to
model the JavaScript `Date` built-in on the ISO-8601 strings this
program works with. -/

/-- Days from civil date (proleptic Gregorian; Unix epoch = 1970-01-01). -/
def daysFromCivil (y m d : Int) : Int :=
  let y' := if m ≤ 2 then y - 1 else y
  let era := y'.fdiv 400
  let yoe := y' - era * 400
  let mp := (m + 9).emod 12
  let doy := (153 * mp + 2).fdiv 5 + d - 1
  let doe := yoe * 365 + yoe.fdiv 4 - yoe.fdiv 100 + doy
  era * 146097 + doe - 719468

/-- Civil date from days-since-epoch. -/
def civilFromDays (z : Int) : Int × Int × Int :=
  let z' := z + 719468
  let era := z'.fdiv 146097
  let doe := z' - era * 146097
  let yoe := (doe - doe.fdiv 1460 + doe.fdiv 36524 - doe.fdiv 146096).fdiv 365
  let y := yoe + era * 400
  let doy := doe - (365 * yoe + yoe.fdiv 4 - yoe.fdiv 100)
  let mp := (5 * doy + 2).fdiv 153
  let d := doy - (153 * mp + 2).fdiv 5 + 1
  let m := mp + (if mp < 10 then 3 else -9)
  (if m ≤ 2 then y + 1 else y, m, d)

/-- Is `y` a leap year? -/
def isLeapYear (y : Int) : Bool :=
  (y.emod 4 = 0 && y.emod 100 ≠ 0) || y.emod 400 = 0

/-- Number of days in month `m` of year `y`. -/
def daysInMonth (y m : Int) : Int :=
  if m = 2 then (if isLeapYear y then 29 else 28)
  else if m = 4 || m = 6 || m = 9 || m = 11 then 30
  else 31

/-- Left-pad the decimal representation of `n` with zeroes to width `w`. -/
def padNum (w : Nat) (n : Nat) : String :=
  let s := toString n
  if s.data.length < w then String.mk (List.replicate (w - s.data.length) '0') ++ s
  else s

/-- Model of `Date.prototype.toISOString` on an epoch-millisecond value
(years 0–9999, the range this program produces). -/
def epochMsToIso (ms : Int) : String :=
  let days := ms.fdiv 86400000
  let rem := ms.emod 86400000
  let ymd := civilFromDays days
  let hh := rem.fdiv 3600000
  let mm := (rem.emod 3600000).fdiv 60000
  let ss := (rem.emod 60000).fdiv 1000
  let msr := rem.emod 1000
  padNum 4 ymd.1.toNat ++ "-" ++ padNum 2 ymd.2.1.toNat ++ "-" ++ padNum 2 ymd.2.2.toNat ++
    "T" ++ padNum 2 hh.toNat ++ ":" ++ padNum 2 mm.toNat ++ ":" ++ padNum 2 ss.toNat ++
    "." ++ padNum 3 msr.toNat ++ "Z"

/-- Decimal value of a digit character. -/
def digitVal (c : Char) : Option Nat :=
  if '0' ≤ c ∧ c ≤ '9' then some (c.toNat - '0'.toNat) else none

/-- Read exactly two digits. -/
def read2 : List Char → Option (Nat × List Char)
  | a :: b :: rest => do
    let x ← digitVal a
    let y ← digitVal b
    pure (x * 10 + y, rest)
  | _ => none

/-- Read exactly four digits. -/
def read4 : List Char → Option (Nat × List Char)
  | a :: b :: c :: d :: rest => do
    let x ← digitVal a
    let y ← digitVal b
    let z ← digitVal c
    let w ← digitVal d
    pure (((x * 10 + y) * 10 + z) * 10 + w, rest)
  | _ => none

/-- Parse the trailing UTC-offset designator: `Z` or `±HH:MM`;
returns the offset in minutes.  The empty remainder means the parse of
the whole string failed (offset required in this model). -/
def readOffset : List Char → Option Int
  | ['Z'] => some 0
  | sgn :: rest => do
    let (oh, rest1) ← read2 rest
    match rest1 with
    | ':' :: rest2 =>
      let (om, rest3) ← read2 rest2
      if rest3 = [] ∧ oh ≤ 23 ∧ om ≤ 59 then
        if sgn = '+' then some (Int.ofNat (oh * 60 + om))
        else if sgn = '-' then some (-(Int.ofNat (oh * 60 + om)))
        else none
      else none
    | _ => none
  | [] => none

/-- Parse the time-of-day part `HH:MM[:SS[.sss]]` followed by an offset
designator; returns (milliseconds into the day, offset minutes). -/
def readTime (l : List Char) : Option (Int × Int) := do
  let (hh, r1) ← read2 l
  match r1 with
  | ':' :: r2 =>
    let (mi, r3) ← read2 r2
    if hh > 23 ∨ mi > 59 then none
    else
      let base : Int := Int.ofNat (hh * 3600000 + mi * 60000)
      match r3 with
      | ':' :: r4 =>
        let (ss, r5) ← read2 r4
        if ss > 59 then none
        else
          let base2 := base + Int.ofNat (ss * 1000)
          match r5 with
          | '.' :: a :: b :: c :: r6 => do
            let x ← digitVal a
            let y ← digitVal b
            let z ← digitVal c
            let off ← readOffset r6
            pure (base2 + Int.ofNat ((x * 10 + y) * 10 + z), off)
          | _ => do
            let off ← readOffset r5
            pure (base2, off)
      | _ => do
        let off ← readOffset r3
        pure (base, off)
  | _ => none

/-- Model of the JavaScript `Date` constructor / `Date.parse` on the
ISO-8601 subset this program stores in `due_at` ("YYYY-MM-DD" taken as
UTC, or "YYYY-MM-DDTHH:MM[:SS[.sss]]" with an explicit `Z`/`±HH:MM`
offset, the "ISO-8601 with offset" format the data model prescribes).
Returns epoch milliseconds, or `none` where the host would produce an
invalid date (`NaN`); strings outside this subset are treated as
unparseable. -/
def jsDateParse (s : String) : Option Int := do
  let (y, r1) ← read4 s.data
  match r1 with
  | '-' :: r2 =>
    let (mo, r3) ← read2 r2
    match r3 with
    | '-' :: r4 =>
      let (d, r5) ← read2 r4
      if mo < 1 ∨ mo > 12 ∨ d < 1 ∨ (d : Int) > daysInMonth y mo then none
      else
        let dayMs := daysFromCivil y mo d * 86400000
        match r5 with
        | [] => some dayMs
        | 'T' :: r6 => do
          let (timeMs, offMin) ← readTime r6
          pure (dayMs + timeMs - offMin * 60000)
        | _ => none
    | _ => none
  | _ => none

/-! ## Domain records (`types.ts`, final multi-user revision) -/

/-- `WorkComment`. -/
structure WorkComment where
  id : String
  todoId : String
  text : String
  createdAt : String
  deriving Repr, DecidableEq

/-- `WorkSubItem`. -/
structure WorkSubItem where
  id : String
  todoId : String
  text : String
  completedAt : Option String
  sortOrder : Int
  createdAt : String
  updatedAt : String
  deriving Repr, DecidableEq

/-- `WorkTodo`.  `status` is one of the four status strings.
`reminderMinutes : Option (Option Int)` keeps the source's three-way
distinction: `none` = field absent (`undefined`), `some none` =
explicit `null`, `some (some m)` = a number.  `comments`/`subItems`
are present only on records produced by `get`. -/
structure WorkTodo where
  id : String
  projectId : Option String
  title : String
  description : Option String
  icon : String
  status : String
  dueAt : String
  date : String
  time : String
  allDay : Bool
  reminderMinutes : Option (Option Int)
  createdAt : String
  updatedAt : String
  comments : Option (List WorkComment) := none
  subItems : Option (List WorkSubItem) := none
  deriving Repr, DecidableEq

/-- `WorkSettings` (per-user settings record). -/
structure WorkSettings where
  defaultReminderMinutes : Option Int
  allDayReminderTime : Option String
  reminderLocale : Option String
  deriving Repr, DecidableEq

/-! ## Reminder resolver (`src/reminders.ts`) -/

/-- `extractOffset` from `reminders.ts`: the trailing `Z` or `±HH:MM`
of an ISO string, defaulting to `"Z"`. -/
def extractOffset (iso : String) : String :=
  match iso.data.reverse with
  | 'Z' :: _ => "Z"
  | m2 :: m1 :: ':' :: h2 :: h1 :: sgn :: _ =>
    if (sgn = '+' ∨ sgn = '-') ∧ (digitVal h1).isSome ∧ (digitVal h2).isSome ∧
        (digitVal m1).isSome ∧ (digitVal m2).isSome then
      String.mk [sgn, h1, h2, ':', m1, m2]
    else "Z"
  | _ => "Z"

/-- Is `s` of shape `DD:DD` (two digits, colon, two digits)? -/
def isHHMM (s : String) : Bool :=
  match s.data with
  | [a, b, ':', c, d] =>
    (digitVal a).isSome && (digitVal b).isSome && (digitVal c).isSome && (digitVal d).isSome
  | _ => false

/-- Is `s` of shape `DD:DD:DD`? -/
def isHHMMSS (s : String) : Bool :=
  match s.data with
  | [a, b, ':', c, d, ':', e, f] =>
    (digitVal a).isSome && (digitVal b).isSome && (digitVal c).isSome &&
      (digitVal d).isSome && (digitVal e).isSome && (digitVal f).isSome
  | _ => false

/-- `normalizeAllDayTime` from `reminders.ts`: trim; empty → `none`;
`HH:MM` → append `":00"`; `HH:MM:SS` → unchanged; else `none`. -/
def normalizeAllDayTime (time : String) : Option String :=
  let trimmed := strTrim time
  if trimmed = "" then none
  else if isHHMM trimmed then some (trimmed ++ ":00")
  else if isHHMMSS trimmed then some trimmed
  else none

/-- `isTodoActive` from `reminders.ts`. -/
def isTodoActive (todo : WorkTodo) : Bool :=
  todo.status ≠ "completed" && todo.status ≠ "cancelled"

/-- The effective lead minutes computed at the top of
`resolveReminderAt`: the per-todo override when it is neither
`undefined` nor `null`, otherwise the settings default. -/
def effectiveReminderMinutes (todo : WorkTodo) (settings : WorkSettings) : Option Int :=
  match todo.reminderMinutes with
  | some (some m) => some m
  | _ => settings.defaultReminderMinutes

/-- `resolveReminderAt` from `reminders.ts`. -/
def resolveReminderAt (todo : WorkTodo) (settings : WorkSettings) : Option String :=
  if todo.dueAt = "" then none
  else if todo.allDay then
    match settings.allDayReminderTime with
    | none => none
    | some t =>
      if t = "" then none
      else
        let datePart := strTake todo.dueAt 10
        let offset := extractOffset todo.dueAt
        match normalizeAllDayTime t with
        | none => none
        | some timePart => some (datePart ++ "T" ++ timePart ++ offset)
  else
    match effectiveReminderMinutes todo settings with
    | none => none
    | some m =>
      match jsDateParse todo.dueAt with
      | none => none
      | some due => some (epochMsToIso (due - m * 60 * 1000))

/-! ## Claims C2–C4: the reminder resolver -/

/-- `jsDateParse` rejects the empty string. -/
theorem jsDateParse_empty : jsDateParse "" = none := rfl

/-- Concrete timed todo whose per-item override is an explicit `null`
(`reminderMinutes = some none`). -/
def c2Todo : WorkTodo :=
  { id := "todo-1", projectId := none, title := "t", description := none,
    icon := "task", status := "not_started", dueAt := "2025-03-01T10:00:00Z",
    date := "2025-03-01", time := "10:00", allDay := false,
    reminderMinutes := some none,
    createdAt := "2025-02-01T00:00:00.000Z", updatedAt := "2025-02-01T00:00:00.000Z" }

/-- Settings with a default lead of 30 minutes. -/
def c2Settings : WorkSettings :=
  { defaultReminderMinutes := some 30, allDayReminderTime := none, reminderLocale := none }

/-- C2 counterexample: for a timed todo with non-empty `dueAt` and
`reminderMinutes` explicitly `null`, `resolveReminderAt` does NOT
return `null`: the explicit `null` falls through to
`settings.defaultReminderMinutes = 30` and a reminder 30 minutes before
the due time is produced. -/
theorem c2_counterexample :
    c2Todo.allDay = false ∧ c2Todo.dueAt ≠ "" ∧ c2Todo.reminderMinutes = some none ∧
    resolveReminderAt c2Todo c2Settings ≠ none ∧
    resolveReminderAt c2Todo c2Settings = some "2025-03-01T09:30:00.000Z" := by
  decide

/-- C2 (amended): a `reminderMinutes` explicitly set to `null` is
treated exactly like an absent override — the effective lead minutes
fall back to `settings.defaultReminderMinutes`, and `resolveReminderAt`
behaves as if the override were absent (so the reminder is suppressed
only when the default is itself null). -/
theorem c2_null_override_falls_back (todo : WorkTodo) (settings : WorkSettings)
    (h : todo.reminderMinutes = some none) :
    effectiveReminderMinutes todo settings = settings.defaultReminderMinutes ∧
    resolveReminderAt todo settings =
      resolveReminderAt { todo with reminderMinutes := none } settings := by
  refine ⟨by simp [effectiveReminderMinutes, h], ?_⟩
  simp only [resolveReminderAt, effectiveReminderMinutes, h]

/-- C2 witness: the amended theorem applied at the concrete todo. -/
theorem c2_null_override_falls_back_witness :
    effectiveReminderMinutes c2Todo c2Settings = c2Settings.defaultReminderMinutes ∧
    resolveReminderAt c2Todo c2Settings =
      resolveReminderAt { c2Todo with reminderMinutes := none } c2Settings :=
  c2_null_override_falls_back c2Todo c2Settings (by decide)

/-- C3: for an all-day todo, whenever `settings.allDayReminderTime` is
null or fails the `HH:MM`/`HH:MM:SS` shape validation, the resolver
returns no reminder — regardless of the per-todo override, the default
lead minutes, and the due date. -/
theorem c3_allday_invalid_time_no_reminder (todo : WorkTodo) (settings : WorkSettings)
    (hAll : todo.allDay = true)
    (hTime : settings.allDayReminderTime = none ∨
      ∃ s, settings.allDayReminderTime = some s ∧ normalizeAllDayTime s = none) :
    resolveReminderAt todo settings = none := by
  rcases hTime with h | ⟨s, hs, hn⟩
  · by_cases hdue : todo.dueAt = "" <;> simp [resolveReminderAt, hdue, hAll, h]
  · by_cases hdue : todo.dueAt = "" <;>
      by_cases hempty : s = "" <;>
      simp [resolveReminderAt, hdue, hAll, hs, hempty, hn]

/-- All-day todo with an override and a due date, for the C3 witness. -/
def c3Todo : WorkTodo :=
  { c2Todo with allDay := true, reminderMinutes := some (some 15) }

/-- Settings whose all-day reminder time fails validation. -/
def c3Settings : WorkSettings :=
  { defaultReminderMinutes := some 30, allDayReminderTime := some "quarter past nine",
    reminderLocale := none }

/-- C3 witness: the theorem applied at a concrete all-day todo and a
malformed configured time. -/
theorem c3_allday_invalid_time_no_reminder_witness :
    resolveReminderAt c3Todo c3Settings = none :=
  c3_allday_invalid_time_no_reminder c3Todo c3Settings (by decide)
    (Or.inr ⟨"quarter past nine", rfl, by decide⟩)

/-- C4: for a timed todo (`allDay = false`) whose effective lead
minutes resolve to `m`, the resolver returns exactly the due timestamp
minus `m` minutes (as an absolute ISO instant) when `dueAt` parses, and
`none` — not an error — when `dueAt` does not parse. -/
theorem c4_lead_minutes_exact (todo : WorkTodo) (settings : WorkSettings) (m : Int)
    (hAll : todo.allDay = false)
    (hm : effectiveReminderMinutes todo settings = some m) :
    (∀ t, jsDateParse todo.dueAt = some t →
      resolveReminderAt todo settings = some (epochMsToIso (t - m * 60 * 1000))) ∧
    (jsDateParse todo.dueAt = none → resolveReminderAt todo settings = none) := by
  constructor
  · intro t ht
    have hdue : todo.dueAt ≠ "" := by
      intro h
      rw [h, jsDateParse_empty] at ht
      exact Option.noConfusion ht
    simp [resolveReminderAt, hdue, hAll, hm, ht]
  · intro ht
    by_cases hdue : todo.dueAt = "" <;> simp [resolveReminderAt, hdue, hAll, hm, ht]

/-- Timed todo with a per-item override of 45 minutes and an
offset-carrying due timestamp (09:00 UTC). -/
def c4Todo : WorkTodo :=
  { c2Todo with dueAt := "2025-03-01T10:00:00+01:00", reminderMinutes := some (some 45) }

/-- C4 witness: the theorem applied at the concrete todo; the reminder
lands 45 minutes before 09:00 UTC. -/
theorem c4_lead_minutes_exact_witness :
    resolveReminderAt c4Todo c2Settings = some "2025-03-01T08:15:00.000Z" := by
  have h := (c4_lead_minutes_exact c4Todo c2Settings 45 (by decide) (by decide)).1
    1740819600000 (by decide)
  rw [h]
  decide

/-! ## Repository utilities (`src/db/utils.ts`) -/

/-- `normalizeOptionalString` from `utils.ts` over the three-way
`undefined`/`null`/string input: `undefined` stays `undefined`, `null`
stays `null`, a string is trimmed with blank collapsing to `null`. -/
def normalizeOptionalString : Option (Option String) → Option (Option String)
  | none => none
  | some none => some none
  | some (some s) => some (if strTrim s = "" then none else some (strTrim s))

/-- `normalizeOptionalString(x) ?? undefined` for an `x?: string`
argument: the `null` outcome collapses back to `undefined`. -/
def normOpt (o : Option String) : Option String :=
  match normalizeOptionalString (o.map some) with
  | some (some t) => some t
  | _ => none

/-- Result view of `deriveDateTime`. -/
structure DerivedDT where
  date : String
  time : String
  deriving Repr, DecidableEq

/-- `deriveDateTime` from `utils.ts`: explicit non-blank `date`/`time`
win (trimmed); missing pieces are derived from `dueAt` when it has at
least 16 characters (`date` = first 10 chars, `time` = chars 11–16,
forced to `"00:00"` for all-day todos), else default to `""`. -/
def deriveDateTime (dueAt : Option String) (date time : Option String)
    (allDay : Option Bool) : DerivedDT :=
  let normalizedDate := normOpt date
  let normalizedTime := normOpt time
  match normalizedDate, normalizedTime with
  | some d, some t => ⟨d, t⟩
  | _, _ =>
    match dueAt with
    | some s =>
      if s ≠ "" ∧ 16 ≤ strLen s then
        ⟨normalizedDate.getD (strTake s 10),
          normalizedTime.getD (if allDay = some true then "00:00" else strSlice s 11 16)⟩
      else
        ⟨normalizedDate.getD "", normalizedTime.getD (if allDay = some true then "00:00" else "")⟩
    | none =>
      ⟨normalizedDate.getD "", normalizedTime.getD (if allDay = some true then "00:00" else "")⟩

/-! ## Claim C5: `deriveDateTime` -/

/-- C5 counterexample: with an explicit `date` but no explicit `time`,
the explicit `date` is kept and only the `time` is derived from
`dueAt` — the claim predicts the pair would be derived from `dueAt`
(date `"2025-02-10"`) whenever not both fields are given. -/
theorem c5_counterexample :
    deriveDateTime (some "2025-02-10T09:00:00+01:00") (some "2026-01-01") none (some false) =
      ⟨"2026-01-01", "09:00"⟩ ∧
    deriveDateTime (some "2025-02-10T09:00:00+01:00") (some "2026-01-01") none (some false) ≠
      ⟨"2025-02-10", "09:00"⟩ := by
  decide

/-- C5 (amended): `deriveDateTime` falls back per field.  If both
`date` and `time` are non-blank after trimming, the trimmed values are
used; each blank/absent field is derived from `dueAt` individually
(when `dueAt` has ≥ 16 characters: `date` from its first 10 characters,
`time` from characters 11–16, with the derived time forced to `"00:00"`
when `allDay`); the documented example holds. -/
theorem c5_deriveDateTime_per_field :
    (∀ dueAt ad d t d' t', normOpt d = some d' → normOpt t = some t' →
      deriveDateTime dueAt d t ad = ⟨d', t'⟩) ∧
    (∀ s ad d t, normOpt d = none → normOpt t = none → 16 ≤ strLen s →
      deriveDateTime (some s) d t ad =
        ⟨strTake s 10, if ad = some true then "00:00" else strSlice s 11 16⟩) ∧
    (∀ s ad d t d', normOpt d = some d' → normOpt t = none → 16 ≤ strLen s →
      deriveDateTime (some s) d t ad =
        ⟨d', if ad = some true then "00:00" else strSlice s 11 16⟩) ∧
    (∀ s ad d t t', normOpt d = none → normOpt t = some t' → 16 ≤ strLen s →
      deriveDateTime (some s) d t ad = ⟨strTake s 10, t'⟩) ∧
    deriveDateTime (some "2025-02-10T09:00:00+01:00") none none (some false) =
      ⟨"2025-02-10", "09:00"⟩ := by
  have hne : ∀ s : String, 16 ≤ strLen s → s ≠ "" := by
    intro s hlen h
    rw [h] at hlen
    exact absurd hlen (by decide)
  refine ⟨?_, ?_, ?_, ?_, by decide⟩
  · intro dueAt ad d t d' t' hd ht
    simp [deriveDateTime, hd, ht]
  · intro s ad d t hd ht hlen
    simp [deriveDateTime, hd, ht, hne s hlen, hlen]
  · intro s ad d t d' hd ht hlen
    simp [deriveDateTime, hd, ht, hne s hlen, hlen]
  · intro s ad d t t' hd ht hlen
    simp [deriveDateTime, hd, ht, hne s hlen, hlen]

/-- C5 witness: the amended theorem applied at concrete inputs
(trimmed explicit fields win). -/
theorem c5_deriveDateTime_per_field_witness :
    deriveDateTime none (some " 2025-05-01 ") (some "07:45") none = ⟨"2025-05-01", "07:45"⟩ :=
  c5_deriveDateTime_per_field.1 none none (some " 2025-05-01 ") (some "07:45")
    "2025-05-01" "07:45" (by decide) (by decide)

/-! ## Database state

One structure per table of the `ext_work_manager_*` schema; a table is
the list of its rows (insertion order) and every SQL statement of the
repositories becomes a pure function on `Db`.  `user_id` is nullable
(`Option String`): the multi-user migration adds the column, and an
`INSERT` that does not mention it leaves SQL `NULL`, which no
`user_id = ?` equality ever matches. -/

/-- Row of `ext_work_manager_projects`. -/
structure ProjectRow where
  id : String
  name : String
  description : Option String
  createdAt : String
  updatedAt : String
  userId : Option String
  deriving Repr, DecidableEq

/-- Row of `ext_work_manager_todos` (`all_day` is the stored 0/1
integer). -/
structure TodoRow where
  id : String
  projectId : Option String
  title : String
  description : Option String
  icon : String
  status : String
  dueAt : String
  date : String
  time : String
  allDay : Int
  reminderMinutes : Option Int
  createdAt : String
  updatedAt : String
  userId : Option String
  deriving Repr, DecidableEq

/-- Row of `ext_work_manager_subitems`. -/
structure SubItemRow where
  id : String
  todoId : String
  text : String
  completedAt : Option String
  sortOrder : Int
  createdAt : String
  updatedAt : String
  userId : Option String
  deriving Repr, DecidableEq

/-- Row of `ext_work_manager_comments`. -/
structure CommentRow where
  id : String
  todoId : String
  text : String
  createdAt : String
  userId : Option String
  deriving Repr, DecidableEq

/-- Row of `ext_work_manager_group_state`. -/
structure GroupStateRow where
  groupId : String
  collapsed : Int
  updatedAt : String
  userId : Option String
  deriving Repr, DecidableEq

/-- The database state. -/
structure Db where
  projects : List ProjectRow := []
  todos : List TodoRow := []
  subitems : List SubItemRow := []
  comments : List CommentRow := []
  groupState : List GroupStateRow := []
  deriving Repr, DecidableEq

/-! ## Todos repository (`src/db/todosRepository.ts`) -/

/-- Options of `TodosRepository.list`. -/
structure ListTodosOptions where
  query : Option String := none
  projectId : Option String := none
  status : Option String := none
  limit : Option Nat := none
  offset : Option Nat := none

/-- Mapping of a todo row to a `WorkTodo` record (the `rows.map`
at the end of `list`/`get`). -/
def rowToTodo (r : TodoRow) : WorkTodo :=
  { id := r.id, projectId := r.projectId, title := r.title, description := r.description,
    icon := r.icon, status := r.status, dueAt := r.dueAt, date := r.date, time := r.time,
    allDay := r.allDay ≠ 0, reminderMinutes := some r.reminderMinutes,
    createdAt := r.createdAt, updatedAt := r.updatedAt }

/-- `normalizeQuery` from `utils.ts`. -/
def normalizeQuery (q : String) : String := strLower (strTrim q)

/-- `TodosRepository.list`: optional substring filter on lowercased
title/description, optional `project_id`/`status` equality filters,
`ORDER BY due_at ASC`, `LIMIT ?/OFFSET ?` with defaults 50/0.  Note:
the issued SQL carries no `user_id` condition. -/
def todosList (db : Db) (options : ListTodosOptions) : List WorkTodo :=
  let lim := options.limit.getD 50
  let off := options.offset.getD 0
  let matchesQuery : TodoRow → Bool := fun r =>
    match options.query with
    | some q =>
      if q ≠ "" then
        let normalized := normalizeQuery q
        strContains (strLower r.title) normalized ||
          (match r.description with
           | some dsc => strContains (strLower dsc) normalized
           | none => false)
      else true
    | none => true
  let matchesProject : TodoRow → Bool := fun r =>
    match options.projectId with
    | some pid => if pid ≠ "" then r.projectId == some pid else true
    | none => true
  let matchesStatus : TodoRow → Bool := fun r =>
    match options.status with
    | some st => if st ≠ "" then r.status == st else true
    | none => true
  let rows := sortByB (fun a b => strLeB a.dueAt b.dueAt)
    (db.todos.filter (fun r => matchesQuery r && matchesProject r && matchesStatus r))
  ((rows.drop off).take lim).map rowToTodo

/-- `CommentsRepository.list` (user-scoped): rows of the todo filtered
by the caller's `user_id`, ordered by `created_at`. -/
def commentsListFor (userId : String) (db : Db) (todoId : String) : List WorkComment :=
  (sortByB (fun a b => strLeB a.createdAt b.createdAt)
      (db.comments.filter (fun c => c.todoId == todoId && c.userId == some userId))).map
    (fun c => { id := c.id, todoId := c.todoId, text := c.text, createdAt := c.createdAt })

/-- `SubItemsRepository.list` (user-scoped): rows of the todo filtered
by the caller's `user_id`, ordered by `sort_order` then `created_at`. -/
def subItemsListFor (userId : String) (db : Db) (todoId : String) : List WorkSubItem :=
  (sortByB
      (fun a b =>
        decide (a.sortOrder < b.sortOrder) ||
          (a.sortOrder == b.sortOrder && strLeB a.createdAt b.createdAt))
      (db.subitems.filter (fun s => s.todoId == todoId && s.userId == some userId))).map
    (fun s =>
      { id := s.id, todoId := s.todoId, text := s.text, completedAt := s.completedAt,
        sortOrder := s.sortOrder, createdAt := s.createdAt, updatedAt := s.updatedAt })

/-- `TodosRepository.get`: first row with the given id (no `user_id`
condition), with nested comments and subitems fetched through the
user-scoped child repositories of the facade bound to `userId`. -/
def scopedGetTodo (userId : String) (db : Db) (todoId : String) : Option WorkTodo :=
  match (db.todos.filter (fun r => r.id == todoId)).head? with
  | none => none
  | some row =>
    some { rowToTodo row with
      comments := some (commentsListFor userId db todoId)
      subItems := some (subItemsListFor userId db todoId) }

/-- `WorkRepository.listTodos` on the facade bound to `userId`
(`repository.withUser(userId)`): it delegates to
`TodosRepository.list`, which ignores the bound user — the `userId`
argument records the scope the caller requested. -/
def scopedListTodos (_userId : String) (db : Db) (options : ListTodosOptions) : List WorkTodo :=
  todosList db options

/-- Partial todo input (`WorkTodoInput`): `projectId` and
`reminderMinutes` keep the `undefined`/`null`/value distinction. -/
structure WorkTodoInput where
  projectId : Option (Option String) := none
  title : Option String := none
  description : Option String := none
  icon : Option String := none
  status : Option String := none
  dueAt : Option String := none
  date : Option String := none
  time : Option String := none
  allDay : Option Bool := none
  reminderMinutes : Option (Option Int) := none

/-- `TodosRepository.upsert`.  `now` stands for
`new Date().toISOString()` and `genId` for `generateId('todo')` at this
call.  Updates merge supplied fields over the existing record and
rewrite the row (no `user_id` condition); creates require
title/icon/status and a non-empty `dueAt` and insert a row without a
`user_id` value (SQL `NULL`). -/
def todosUpsert (userId : String) (id : Option String) (input : WorkTodoInput)
    (now genId : String) (db : Db) : Except String (WorkTodo × Db) :=
  let normalizedId : Option String :=
    match normalizeOptionalString (id.map some) with
    | some (some v) => some v
    | _ => none
  let todoId := normalizedId.getD genId
  let normalizedProjectId := normalizeOptionalString input.projectId
  match scopedGetTodo userId db todoId with
  | some ex =>
    let projectId := match normalizedProjectId with
      | none => ex.projectId
      | some v => v
    let merged : WorkTodo := { ex with
      projectId := projectId
      title := input.title.getD ex.title
      description := input.description.orElse (fun _ => ex.description)
      icon := input.icon.getD ex.icon
      status := input.status.getD ex.status
      dueAt := input.dueAt.getD ex.dueAt
      date := input.date.getD ex.date
      time := input.time.getD ex.time
      allDay := input.allDay.getD ex.allDay
      reminderMinutes :=
        (match input.reminderMinutes with
          | none => ex.reminderMinutes
          | some v => some v)
      updatedAt := now }
    let derived :=
      deriveDateTime (some merged.dueAt) (some merged.date) (some merged.time)
        (some merged.allDay)
    let updateRow : TodoRow → TodoRow := fun r =>
      if r.id == todoId then
        { r with
          projectId := merged.projectId
          title := merged.title
          description := merged.description
          icon := merged.icon
          status := merged.status
          dueAt := merged.dueAt
          date := derived.date
          time := derived.time
          allDay := if merged.allDay then 1 else 0
          reminderMinutes := merged.reminderMinutes.getD none
          updatedAt := now }
      else r
    .ok ({ merged with date := derived.date, time := derived.time, updatedAt := now },
      { db with todos := db.todos.map updateRow })

  | none =>
    if input.title.getD "" = "" ∨ input.icon.getD "" = "" ∨ input.status.getD "" = "" then
      .error "Todo title, icon, and status are required"
    else
      let dueAt := input.dueAt.getD ""
      let derived := deriveDateTime (some dueAt) input.date input.time input.allDay
      if dueAt = "" then .error "Todo dueAt is required"
      else
        let projectId := normalizedProjectId.getD none
        let row : TodoRow :=
          { id := todoId, projectId := projectId, title := input.title.getD "",
            description := input.description, icon := input.icon.getD "",
            status := input.status.getD "", dueAt := dueAt, date := derived.date,
            time := derived.time, allDay := if input.allDay.getD false then 1 else 0,
            reminderMinutes := input.reminderMinutes.getD none,
            createdAt := now, updatedAt := now, userId := none }
        .ok
          ({ id := todoId, projectId := projectId, title := input.title.getD "",
              description := input.description, icon := input.icon.getD "",
              status := input.status.getD "", dueAt := dueAt, date := derived.date,
              time := derived.time, allDay := input.allDay.getD false,
              reminderMinutes := some (input.reminderMinutes.getD none),
              createdAt := now, updatedAt := now },
            { db with todos := db.todos ++ [row] })

/-! ## Projects repository (`src/db/projectsRepository.ts`, user-scoped) -/

/-- `ProjectsRepository.delete`: look up the project by id AND
`user_id`; when found, null the `project_id` of the caller's todos that
reference it, then delete the project row; returns whether a project
was deleted. -/
def projectsDelete (userId : String) (id : String) (db : Db) : Bool × Db :=
  let found := db.projects.filter (fun r => r.id == id && r.userId == some userId)
  if found.isEmpty then (false, db)
  else
    let todos' := db.todos.map (fun r =>
      if r.projectId == some id && r.userId == some userId then { r with projectId := none }
      else r)
    let projects' := db.projects.filter (fun r => !(r.id == id && r.userId == some userId))
    (true, { db with todos := todos', projects := projects' })

/-! ## Sub-items repository (`SubItemsRepository`, user-scoped) -/

/-- The `WHERE id = ? AND todo_id = ? AND user_id = ?` condition of
`SubItemsRepository.toggle`. -/
def subItemMatch (userId todoId subItemId : String) (r : SubItemRow) : Bool :=
  r.id == subItemId && r.todoId == todoId && r.userId == some userId

/-- `SubItemsRepository.toggle`: read the matching row's
`completed_at` (first match of id + todo id + `user_id`); when found,
write `null` if it was truthy and a fresh timestamp otherwise
(`nowC`/`nowU` stand for the two `new Date().toISOString()` calls). -/
def subItemsToggle (userId todoId subItemId : String) (nowC nowU : String) (db : Db) :
    Bool × Db :=
  match (db.subitems.filter (subItemMatch userId todoId subItemId)).head? with
  | none => (false, db)
  | some row =>
    let nextValue := if optStrTruthy row.completedAt then none else some nowC
    (true,
      { db with subitems := db.subitems.map (fun r =>
          if subItemMatch userId todoId subItemId r then
            { r with completedAt := nextValue, updatedAt := nowU }
          else r) })

/-! ## Panel repository (`src/db/panelRepository.ts`) -/

/-- Synthetic group id for todos without a project (`constants.ts`). -/
def NO_PROJECT_GROUP : String := "no-project"

/-- Comment shape of a panel item. -/
structure PanelComment where
  id : String
  text : String
  createdAt : String
  deriving Repr, DecidableEq

/-- Sub-item shape of a panel item. -/
structure PanelSub where
  id : String
  text : String
  completedAt : Option String
  deriving Repr, DecidableEq

/-- One todo as rendered in a panel group. -/
structure PanelItem where
  id : String
  title : String
  description : String
  icon : String
  status : String
  date : String
  time : String
  comments : List PanelComment
  subItems : List PanelSub
  commentCount : Nat
  deriving Repr, DecidableEq

/-- A panel group. -/
structure PanelGroup where
  id : String
  title : String
  collapsed : Bool
  items : List PanelItem
  deriving Repr, DecidableEq

/-- A group before items are attached. -/
structure GroupShell where
  id : String
  title : String
  collapsed : Bool
  deriving Repr, DecidableEq

/-- Lookup in a JavaScript `Map` built from a row list: the LAST row
with the given group id wins. -/
def lookupLastCollapsed (states : List GroupStateRow) (gid : String) : Option Int :=
  match states with
  | [] => none
  | s :: rest =>
    match lookupLastCollapsed rest gid with
    | some v => some v
    | none => if s.groupId == gid then some s.collapsed else none

/-- Index of the LAST shell with the given id (model of
`new Map(groups.map(g => [g.id, g]))` where later entries overwrite). -/
def lastIdxOf (shells : List GroupShell) (gid : String) : Option Nat :=
  match shells with
  | [] => none
  | g :: rest =>
    match lastIdxOf rest gid with
    | some i => some (i + 1)
    | none => if g.id == gid then some 0 else none

/-- The shell index a todo row's items are pushed to:
`groupIndex.get(projectId ?? NO_PROJECT_GROUP) ?? groupIndex.get(NO_PROJECT_GROUP)`. -/
def todoTargetIdx (shells : List GroupShell) (r : TodoRow) : Option Nat :=
  let gid := (normOpt r.projectId).getD NO_PROJECT_GROUP
  match lastIdxOf shells gid with
  | some i => some i
  | none => lastIdxOf shells NO_PROJECT_GROUP

/-- The comments lite-list of a todo (`commentsByTodo`), built from the
`created_at`-ordered comment query of `listGroups` (no `user_id`
condition in this revision). -/
def panelCommentsFor (db : Db) (todoId : String) : List PanelComment :=
  ((sortByB (fun a b => strLeB a.createdAt b.createdAt) db.comments).filter
      (fun c => c.todoId == todoId)).map
    (fun c => { id := c.id, text := c.text, createdAt := c.createdAt })

/-- The sub-item lite-list of a todo (`subItemsByTodo`), built from the
(`sort_order`, `created_at`)-ordered sub-item query of `listGroups`. -/
def panelSubsFor (db : Db) (todoId : String) : List PanelSub :=
  ((sortByB
        (fun a b =>
          decide (a.sortOrder < b.sortOrder) ||
            (a.sortOrder == b.sortOrder && strLeB a.createdAt b.createdAt))
        db.subitems).filter
      (fun s => s.todoId == todoId)).map
    (fun s => { id := s.id, text := s.text, completedAt := s.completedAt })

/-- The panel item pushed for a todo row. -/
def mkPanelItem (db : Db) (r : TodoRow) : PanelItem :=
  let cs := panelCommentsFor db r.id
  { id := r.id, title := r.title, description := r.description.getD "", icon := r.icon,
    status := r.status, date := r.date, time := r.time,
    comments := cs, subItems := panelSubsFor db r.id, commentCount := cs.length }

/-- Attach items group by group: the group built from the shell at
running index `i` receives (in due order) every todo targeting `i`. -/
def buildGroupsAux (db : Db) (todosSorted : List TodoRow) (allShells : List GroupShell) :
    List GroupShell → Nat → List PanelGroup
  | [], _ => []
  | sh :: rest, i =>
    { id := sh.id, title := sh.title, collapsed := sh.collapsed,
        items := (todosSorted.filter (fun r => todoTargetIdx allShells r == some i)).map
          (mkPanelItem db) } ::
      buildGroupsAux db todosSorted allShells rest (i + 1)

/-- Comparator-as-order of the final group sort: groups without items
(`earliest = null`) sort last, the rest by their first item's
`date`T`time` string. -/
def earliestLe : Option String → Option String → Bool
  | none, none => true
  | none, some _ => false
  | some _, none => true
  | some a, some b => strLeB a b

/-- `!!collapsed` of the LAST `group_state` row for the id, defaulting
to `false` (`collapsedByGroup.get(gid) ?? false`). -/
def panelCollapsedFor (db : Db) (gid : String) : Bool :=
  match lookupLastCollapsed db.groupState gid with
  | some v => v ≠ 0
  | none => false

/-- The group shells of `listGroups`: one per project in name order,
then the synthetic "No Project" group appended last. -/
def panelShells (db : Db) : List GroupShell :=
  (sortByB (fun a b => strLeB a.name b.name) db.projects).map
      (fun p => GroupShell.mk p.id p.name (panelCollapsedFor db p.id)) ++
    [GroupShell.mk NO_PROJECT_GROUP "No Project" (panelCollapsedFor db NO_PROJECT_GROUP)]

/-- The todo rows of `listGroups`, `ORDER BY due_at ASC`. -/
def panelTodosSorted (db : Db) : List TodoRow :=
  sortByB (fun a b => strLeB a.dueAt b.dueAt) db.todos

/-- The groups of `listGroups` before the final earliest-item sort. -/
def panelGroups (db : Db) : List PanelGroup :=
  buildGroupsAux db (panelTodosSorted db) (panelShells db) (panelShells db) 0

/-- `PanelRepository.listGroups`: one group per project (name order)
plus the synthetic "No Project" group appended last; todos (due order)
are pushed into the group found in the id→group map (last duplicate
wins, absent project falls back to "No Project"); groups are finally
sorted by earliest item. -/
def listGroups (db : Db) : List PanelGroup :=
  (sortByB (fun a b => earliestLe a.2 b.2)
      ((panelGroups db).map
        (fun g => (g, g.items.head?.map (fun it => it.date ++ "T" ++ it.time))))).map
    (·.1)

/-! ## Scheduler model and entry-point logic (`src/index.ts`) -/

/-- A scheduled reminder job: the key, the fire timestamp, the
`{todoId, userId}` payload and the job-level user id. -/
structure SchedJob where
  id : String
  fireAt : String
  payloadTodoId : String
  payloadUserId : String
  userId : String
  deriving Repr, DecidableEq

/-- `getReminderJobId`: composite job key of user and todo. -/
def getReminderJobId (todoId userId : String) : String :=
  "todo.reminder:" ++ userId ++ ":" ++ todoId

/-- `scheduler.cancel`: drop the job with the given key. -/
def schedulerCancel (jobId : String) (jobs : List SchedJob) : List SchedJob :=
  jobs.filter (fun j => j.id != jobId)

/-- `scheduler.schedule`: re-scheduling the same key replaces the
prior job. -/
def schedulerSchedule (job : SchedJob) (jobs : List SchedJob) : List SchedJob :=
  jobs.filter (fun j => j.id != job.id) ++ [job]

/-- `scheduleTodo` from `index.ts`: inactive todo → cancel its job;
no resolvable reminder time → cancel; otherwise (re)schedule the job
under the composite key. -/
def scheduleTodo (todo : WorkTodo) (userId : String) (settings : WorkSettings)
    (jobs : List SchedJob) : List SchedJob :=
  let jobId := getReminderJobId todo.id userId
  if ¬ isTodoActive todo then schedulerCancel jobId jobs
  else
    match resolveReminderAt todo settings with
    | none => schedulerCancel jobId jobs
    | some reminderAt =>
      schedulerSchedule
        { id := jobId, fireAt := reminderAt, payloadTodoId := todo.id,
          payloadUserId := userId, userId := userId } jobs

/-- The `userId`/`todoId` fields read out of a fired job's payload
(`none` models a missing or non-string value). -/
structure FirePayloadM where
  payloadTodoId : Option String := none
  payloadUserId : Option String := none

/-- Observable effects of the scheduler-fire handler: reading a todo
through the user-scoped repository, and appending a chat instruction
targeted at a user about a todo. -/
inductive FireEffect where
  | readTodo (todoId : String)
  | appendInstruction (userId : String) (todoId : String)
  deriving Repr, DecidableEq

/-- The `scheduler.onFire` callback of `index.ts` as its effect trace:
no chat capability → nothing; falsy context user or payload user
mismatch → nothing; missing/falsy todo id → nothing; otherwise the todo
is read and, when found and still active, an instruction is appended
for the context user. -/
def handleFire (chatAvailable : Bool) (ctxUserId : Option String) (pl : FirePayloadM)
    (db : Db) : List FireEffect :=
  if ¬ chatAvailable then []
  else
    match ctxUserId with
    | none => []
    | some cu =>
      if cu = "" then []
      else if pl.payloadUserId ≠ some cu then []
      else
        match pl.payloadTodoId with
        | none => []
        | some tid =>
          if tid = "" then []
          else
            FireEffect.readTodo tid ::
              (match scopedGetTodo cu db tid with
               | none => []
               | some todo =>
                 if ¬ isTodoActive todo then []
                 else [FireEffect.appendInstruction cu tid])

/-! ## Claim C1: cross-user isolation of `listTodos` -/

/-- Todo input used to create a todo through the facade bound to
user `user-b`. -/
def c1Input : WorkTodoInput :=
  { title := some "Quarterly report", icon := some "file",
    status := some "not_started", dueAt := some "2025-03-01T10:00:00Z" }

/-- Database state after user `user-b`'s facade created one todo
(`generateId` returned `"todo-b1"`) on an empty store. -/
def c1Db : Db :=
  match todosUpsert "user-b" none c1Input "2025-02-01T00:00:00.000Z" "todo-b1" {} with
  | .ok (_, db) => db
  | .error _ => {}

/-- C1 evaluation at the failing input: a todo created through the
facade scoped to `user-b` IS returned by `listTodos()` on the facade
scoped to `user-a` — the todos queries carry no `user_id` filter (and
the insert stores none), so cross-user isolation fails for todos. -/
theorem c1_cross_user_todo_leak :
    (scopedListTodos "user-a" c1Db {}).map (fun t => t.id) = ["todo-b1"] ∧
    c1Db.todos.all (fun r => r.userId != some "user-a") = true := by
  decide

/-! ## Claim C9: no reminder for completed/cancelled todos -/

/-- C9: whenever `scheduleTodo` runs for a todo whose status is
completed or cancelled, the scheduler state is exactly the prior state
with that todo's job cancelled, and no job for the todo remains — in
particular nothing is scheduled. -/
theorem c9_inactive_todo_cancels (todo : WorkTodo) (userId : String)
    (settings : WorkSettings) (jobs : List SchedJob)
    (h : todo.status = "completed" ∨ todo.status = "cancelled") :
    scheduleTodo todo userId settings jobs =
      schedulerCancel (getReminderJobId todo.id userId) jobs ∧
    ∀ j ∈ scheduleTodo todo userId settings jobs,
      j.id ≠ getReminderJobId todo.id userId := by
  have hact : isTodoActive todo = false := by
    rcases h with h | h <;> simp [isTodoActive, h]
  have h1 : scheduleTodo todo userId settings jobs =
      schedulerCancel (getReminderJobId todo.id userId) jobs := by
    simp [scheduleTodo, hact]
  refine ⟨h1, ?_⟩
  rw [h1]
  intro j hj
  have := List.mem_filter.mp hj
  simpa using this.2

/-- Completed todo for the C9 witness. -/
def c9Todo : WorkTodo := { c2Todo with status := "completed" }

/-- A pending job under the composite key of `c9Todo` and `user-1`. -/
def c9Job : SchedJob :=
  { id := getReminderJobId c9Todo.id "user-1", fireAt := "2025-03-01T09:30:00.000Z",
    payloadTodoId := c9Todo.id, payloadUserId := "user-1", userId := "user-1" }

/-- C9 witness: running `scheduleTodo` for the completed todo removes
its pending job and schedules nothing. -/
theorem c9_inactive_todo_cancels_witness :
    scheduleTodo c9Todo "user-1" c2Settings [c9Job] = [] := by
  have h := (c9_inactive_todo_cancels c9Todo "user-1" c2Settings [c9Job] (Or.inl rfl)).1
  rw [h]
  decide

/-! ## Claim C10: fired jobs never cross users -/

/-- C10: when the fired job's payload `userId` is missing or differs
from the execution context's user, the handler produces no effects at
all — no todo is read and no chat instruction is appended. -/
theorem c10_user_mismatch_no_effects (chat : Bool) (ctxUserId : Option String)
    (pl : FirePayloadM) (db : Db)
    (h : ∀ cu, ctxUserId = some cu → pl.payloadUserId ≠ some cu) :
    handleFire chat ctxUserId pl db = [] := by
  cases ctxUserId with
  | none => cases chat <;> simp [handleFire]
  | some cu =>
    have hne := h cu rfl
    cases chat <;> by_cases hcu : cu = "" <;> simp [handleFire, hcu, hne]

/-- C10 witness: a job scheduled for `user-b` firing in `user-a`'s
execution context yields no effects. -/
theorem c10_user_mismatch_no_effects_witness :
    handleFire true (some "user-a")
      { payloadTodoId := some "todo-1", payloadUserId := some "user-b" } {} = [] :=
  c10_user_mismatch_no_effects true (some "user-a")
    { payloadTodoId := some "todo-1", payloadUserId := some "user-b" } {}
    (fun cu hcu => by cases hcu; decide)

/-! ## Claim C7: partial upsert is frame-preserving -/

/-- C7: upserting an existing todo with an input that only supplies
`status = "completed"` returns the prior record with only `status` and
`updatedAt` changed and the display date/time re-derived from the
unchanged `dueAt` (and the unchanged stored date/time). -/
theorem c7_status_only_upsert (db : Db) (userId tid now genId : String) (ex : WorkTodo)
    (hid1 : strTrim tid = tid) (hid2 : tid ≠ "")
    (hex : scopedGetTodo userId db tid = some ex) :
    (todosUpsert userId (some tid) { status := some "completed" } now genId db).toOption.map
        Prod.fst =
      some { ex with
        status := "completed"
        updatedAt := now
        date := (deriveDateTime (some ex.dueAt) (some ex.date) (some ex.time)
          (some ex.allDay)).date
        time := (deriveDateTime (some ex.dueAt) (some ex.date) (some ex.time)
          (some ex.allDay)).time } := by
  have hnorm : normalizeOptionalString ((some tid).map some) = some (some tid) := by
    show normalizeOptionalString (some (some tid)) = some (some tid)
    simp [normalizeOptionalString, hid1, hid2]
  simp only [todosUpsert, hnorm, Option.getD_some, hex]
  rfl

/-- Stored todo row for the C7 witness. -/
def c7Row : TodoRow :=
  { id := "todo-1", projectId := some "proj-9", title := "Buy milk",
    description := some "2 liters", icon := "cart", status := "not_started",
    dueAt := "2025-03-01T10:00:00Z", date := "2025-03-01", time := "10:00", allDay := 0,
    reminderMinutes := some 10, createdAt := "2025-01-01T00:00:00.000Z",
    updatedAt := "2025-01-01T00:00:00.000Z", userId := some "u1" }

/-- Database holding exactly `c7Row`. -/
def c7Db : Db := { todos := [c7Row] }

/-- The record `get` returns for `c7Row` under user `u1`. -/
def c7Ex : WorkTodo := { rowToTodo c7Row with comments := some [], subItems := some [] }

/-- C7 witness: the theorem applied to the one-row database — every
unspecified field survives, only status/updatedAt change and date/time
are re-derived (here unchanged). -/
theorem c7_status_only_upsert_witness :
    (todosUpsert "u1" (some "todo-1") { status := some "completed" }
        "2025-04-01T00:00:00.000Z" "gen" c7Db).toOption.map Prod.fst =
      some { c7Ex with
        status := "completed"
        updatedAt := "2025-04-01T00:00:00.000Z"
        date := "2025-03-01"
        time := "10:00" } := by
  have h := c7_status_only_upsert c7Db "u1" "todo-1" "2025-04-01T00:00:00.000Z" "gen" c7Ex
    (by decide) (by decide) (by decide)
  rw [h]
  decide

/-! ## Claim C8: double toggle restores completion state -/

/-- Updating matched rows does not change which rows match. -/
theorem subItemMatch_after_update (u td sid : String) (next : Option String) (nu : String)
    (r : SubItemRow) :
    subItemMatch u td sid
        (if subItemMatch u td sid r then { r with completedAt := next, updatedAt := nu }
         else r) =
      subItemMatch u td sid r := by
  by_cases h : subItemMatch u td sid r = true
  · rw [if_pos h]; rfl
  · rw [if_neg h]

/-- Filtering the toggled table is toggling the filtered rows. -/
theorem toggle_filter_comm (u td sid : String) (next : Option String) (nu : String)
    (l : List SubItemRow) :
    (l.map (fun x =>
        if subItemMatch u td sid x then { x with completedAt := next, updatedAt := nu }
        else x)).filter (subItemMatch u td sid) =
      (l.filter (subItemMatch u td sid)).map (fun x =>
        if subItemMatch u td sid x then { x with completedAt := next, updatedAt := nu }
        else x) := by
  rw [List.filter_map]
  congr 1
  apply List.filter_congr
  intro a _
  exact subItemMatch_after_update u td sid next nu a

/-- Evaluation of one `toggle` call when exactly one row matches. -/
theorem toggle_step (u td sid nc nu : String) (db : Db) (r : SubItemRow)
    (h : db.subitems.filter (subItemMatch u td sid) = [r]) :
    subItemsToggle u td sid nc nu db =
      (true, { db with subitems := db.subitems.map (fun x =>
        if subItemMatch u td sid x then
          { x with
            completedAt := if optStrTruthy r.completedAt then none else some nc
            updatedAt := nu }
        else x) }) := by
  simp [subItemsToggle, h]

/-- C8: toggling a subitem twice in succession returns `true` both
times and restores the subitem's completion state (`completedAt` null
versus non-null), for any stored row whose `completed_at` is not the
(unreachable-through-the-API) empty string and any non-empty first
toggle timestamp. -/
theorem c8_double_toggle_restores (db : Db) (u td sid n1c n1u n2c n2u : String)
    (r0 : SubItemRow)
    (hmatch : db.subitems.filter (subItemMatch u td sid) = [r0])
    (hne : r0.completedAt ≠ some "")
    (hn1 : n1c ≠ "") :
    (subItemsToggle u td sid n1c n1u db).1 = true ∧
    (subItemsToggle u td sid n2c n2u (subItemsToggle u td sid n1c n1u db).2).1 = true ∧
    ((subItemsToggle u td sid n2c n2u
          (subItemsToggle u td sid n1c n1u db).2).2.subitems.filter
        (subItemMatch u td sid)).map (fun r => r.completedAt.isSome) =
      [r0.completedAt.isSome] := by
  have hr0P : subItemMatch u td sid r0 = true := by
    have hmem : r0 ∈ db.subitems.filter (subItemMatch u td sid) := by
      rw [hmatch]; exact List.mem_singleton_self r0
    exact (List.mem_filter.mp hmem).2
  have h1 := toggle_step u td sid n1c n1u db r0 hmatch
  have hfilter1 : (subItemsToggle u td sid n1c n1u db).2.subitems.filter
      (subItemMatch u td sid) =
      [{ r0 with
          completedAt := if optStrTruthy r0.completedAt then none else some n1c
          updatedAt := n1u }] := by
    rw [h1]
    simp only [toggle_filter_comm, hmatch, List.map_cons, List.map_nil]
    rw [if_pos hr0P]
  have h2 := toggle_step u td sid n2c n2u (subItemsToggle u td sid n1c n1u db).2 _ hfilter1
  refine ⟨by rw [h1], by rw [h2], ?_⟩
  have hr1P : subItemMatch u td sid
      { r0 with
        completedAt := if optStrTruthy r0.completedAt then none else some n1c
        updatedAt := n1u } = true := by
    simpa [subItemMatch] using hr0P
  rw [h2]
  simp only [toggle_filter_comm, hfilter1, List.map_cons, List.map_nil]
  rw [if_pos hr1P]
  rcases hc : r0.completedAt with _ | s
  · simp [optStrTruthy, hn1, hc]
  · have hs : s ≠ "" := by
      intro h
      exact hne (by rw [hc, h])
    simp [optStrTruthy, hc, hs]

/-- Stored subitem row (incomplete) for the C8 witness. -/
def c8Row : SubItemRow :=
  { id := "sub-1", todoId := "todo-1", text := "Draft slides", completedAt := none,
    sortOrder := 0, createdAt := "2025-01-01T00:00:00.000Z",
    updatedAt := "2025-01-01T00:00:00.000Z", userId := some "u1" }

/-- Database holding exactly `c8Row`. -/
def c8Db : Db := { subitems := [c8Row] }

/-- C8 witness: the theorem applied to the one-subitem database. -/
theorem c8_double_toggle_restores_witness :
    (subItemsToggle "u1" "todo-1" "sub-1" "2025-02-01T00:00:00.000Z" "2025-02-01T00:00:00.000Z"
        c8Db).1 = true ∧
    (subItemsToggle "u1" "todo-1" "sub-1" "2025-02-02T00:00:00.000Z" "2025-02-02T00:00:00.000Z"
        (subItemsToggle "u1" "todo-1" "sub-1" "2025-02-01T00:00:00.000Z"
          "2025-02-01T00:00:00.000Z" c8Db).2).1 = true ∧
    ((subItemsToggle "u1" "todo-1" "sub-1" "2025-02-02T00:00:00.000Z" "2025-02-02T00:00:00.000Z"
          (subItemsToggle "u1" "todo-1" "sub-1" "2025-02-01T00:00:00.000Z"
            "2025-02-01T00:00:00.000Z" c8Db).2).2.subitems.filter
        (subItemMatch "u1" "todo-1" "sub-1")).map (fun r => r.completedAt.isSome) =
      [c8Row.completedAt.isSome] :=
  c8_double_toggle_restores c8Db "u1" "todo-1" "sub-1" "2025-02-01T00:00:00.000Z"
    "2025-02-01T00:00:00.000Z" "2025-02-02T00:00:00.000Z" "2025-02-02T00:00:00.000Z" c8Row
    (by decide) (by decide) (by decide)

/-! ## Claim C6: deleting a project reassigns todos to "No Project" -/

/-- The last index of a shell list ending in `x` at `x.id` is the index
of `x` itself. -/
theorem lastIdxOf_concat_self (l : List GroupShell) (x : GroupShell) :
    lastIdxOf (l ++ [x]) x.id = some l.length := by
  induction l with
  | nil => simp [lastIdxOf]
  | cons g rest ih => simp [lastIdxOf, ih]

/-- The group built from the shell at position `k` belongs to
`buildGroupsAux` started at index `i`, carrying the todos that target
index `i + k`. -/
theorem mem_buildGroupsAux (db : Db) (todosSorted : List TodoRow)
    (allShells : List GroupShell) :
    ∀ (shells : List GroupShell) (i k : Nat) (sh : GroupShell), shells.get? k = some sh →
      ({ id := sh.id, title := sh.title, collapsed := sh.collapsed,
          items := (todosSorted.filter
            (fun r => todoTargetIdx allShells r == some (i + k))).map (mkPanelItem db) } :
        PanelGroup) ∈ buildGroupsAux db todosSorted allShells shells i := by
  intro shells
  induction shells with
  | nil =>
    intro i k sh h
    simp at h
  | cons g rest ih =>
    intro i k sh h
    cases k with
    | zero =>
      simp only [List.get?] at h
      injection h with h
      subst h
      simp only [buildGroupsAux, Nat.add_zero]
      exact List.mem_cons_self _ _
    | succ k' =>
      simp only [List.get?] at h
      have hm := ih (i + 1) k' sh h
      have harith : i + 1 + k' = i + (k' + 1) := by omega
      rw [harith] at hm
      simp only [buildGroupsAux]
      exact List.mem_cons_of_mem _ hm

/-- Membership survives the final earliest-item sort of `listGroups`. -/
theorem mem_listGroups_of_mem_panelGroups (db : Db) (g : PanelGroup)
    (h : g ∈ panelGroups db) : g ∈ listGroups db := by
  unfold listGroups
  apply List.mem_map.mpr
  refine ⟨(g, g.items.head?.map (fun it => it.date ++ "T" ++ it.time)), ?_, rfl⟩
  exact (mem_sortByB _ _ _).mpr (List.mem_map_of_mem _ h)

/-- C6: deleting a project the caller owns deletes no todo row; every
todo of that user referencing the project has exactly its `projectId`
nulled (all other rows and fields untouched), and each such todo
subsequently shows up inside the synthetic "No Project" panel group. -/
theorem c6_delete_project_moves_todos (db : Db) (u P : String)
    (hfound : db.projects.filter (fun r => r.id == P && r.userId == some u) ≠ []) :
    (projectsDelete u P db).1 = true ∧
    (projectsDelete u P db).2.todos.map (fun r => r.id) = db.todos.map (fun r => r.id) ∧
    (∀ r ∈ db.todos, r.userId = some u → r.projectId = some P →
      ({ r with projectId := none } : TodoRow) ∈ (projectsDelete u P db).2.todos) ∧
    (∀ r ∈ db.todos, ¬(r.userId = some u ∧ r.projectId = some P) →
      r ∈ (projectsDelete u P db).2.todos) ∧
    (∀ r ∈ db.todos, r.userId = some u → r.projectId = some P →
      ∃ g ∈ listGroups (projectsDelete u P db).2,
        g.id = NO_PROJECT_GROUP ∧ r.id ∈ g.items.map (fun it => it.id)) := by
  have hie : (db.projects.filter (fun r => r.id == P && r.userId == some u)).isEmpty =
      false := by
    cases hfe : db.projects.filter (fun r => r.id == P && r.userId == some u) with
    | nil => exact absurd hfe hfound
    | cons a l => rfl
  set f : TodoRow → TodoRow := fun r =>
    if r.projectId == some P && r.userId == some u then { r with projectId := none }
    else r with hf
  set X : Db := { db with
    todos := db.todos.map f
    projects := db.projects.filter (fun r => !(r.id == P && r.userId == some u)) } with hXdef
  have hdel : projectsDelete u P db = (true, X) := by
    rw [hXdef, hf]
    simp [projectsDelete, hie]
  have hsnd : (projectsDelete u P db).2 = X := by rw [hdel]
  have hXt : X.todos = db.todos.map f := by rw [hXdef]
  refine ⟨by rw [hdel], ?_, ?_, ?_, ?_⟩
  · rw [hsnd, hXt, List.map_map]
    apply List.map_congr_left
    intro r _
    by_cases h : (r.projectId == some P && r.userId == some u) = true
    · simp only [hf, Function.comp_apply, if_pos h]
    · simp only [hf, Function.comp_apply, if_neg h]
  · intro r hr h1 h2
    rw [hsnd, hXt]
    have hc : (r.projectId == some P && r.userId == some u) = true := by
      rw [h1, h2]
      simp
    exact List.mem_map.mpr ⟨r, hr, by simp only [hf, if_pos hc]⟩
  · intro r hr hno
    rw [hsnd, hXt]
    have hc : ¬((r.projectId == some P && r.userId == some u) = true) := by
      intro hcc
      obtain ⟨hp, hu⟩ := Bool.and_eq_true_iff.mp hcc
      exact hno ⟨eq_of_beq hu, eq_of_beq hp⟩
    exact List.mem_map.mpr ⟨r, hr, by simp only [hf, if_neg hc]⟩
  · intro r hr h1 h2
    rw [hsnd]
    have hc : (r.projectId == some P && r.userId == some u) = true := by
      rw [h1, h2]
      simp
    have hr' : ({ r with projectId := none } : TodoRow) ∈ X.todos := by
      rw [hXt]
      exact List.mem_map.mpr ⟨r, hr, by simp only [hf, if_pos hc]⟩
    have hsorted : ({ r with projectId := none } : TodoRow) ∈ panelTodosSorted X :=
      (mem_sortByB _ _ _).mpr hr'
    have hget : (panelShells X).get?
        ((sortByB (fun a b => strLeB a.name b.name) X.projects).map
          (fun p => GroupShell.mk p.id p.name (panelCollapsedFor X p.id))).length =
        some (GroupShell.mk NO_PROJECT_GROUP "No Project"
          (panelCollapsedFor X NO_PROJECT_GROUP)) := by
      unfold panelShells
      rw [List.get?_eq_getElem?]
      exact List.getElem?_concat_length _ _
    have htarget : todoTargetIdx (panelShells X) ({ r with projectId := none } : TodoRow) =
        some ((sortByB (fun a b => strLeB a.name b.name) X.projects).map
          (fun p => GroupShell.mk p.id p.name (panelCollapsedFor X p.id))).length := by
      show (match lastIdxOf (panelShells X)
          ((normOpt ({ r with projectId := none } : TodoRow).projectId).getD
            NO_PROJECT_GROUP) with
        | some i => some i
        | none => lastIdxOf (panelShells X) NO_PROJECT_GROUP) = _
      have hgid : (normOpt ({ r with projectId := none } : TodoRow).projectId).getD
          NO_PROJECT_GROUP = NO_PROJECT_GROUP := rfl
      rw [hgid]
      have hlast : lastIdxOf (panelShells X) NO_PROJECT_GROUP =
          some ((sortByB (fun a b => strLeB a.name b.name) X.projects).map
            (fun p => GroupShell.mk p.id p.name (panelCollapsedFor X p.id))).length := by
        unfold panelShells
        exact lastIdxOf_concat_self _
          (GroupShell.mk NO_PROJECT_GROUP "No Project"
            (panelCollapsedFor X NO_PROJECT_GROUP))
      rw [hlast]
    have hG := mem_buildGroupsAux X (panelTodosSorted X) (panelShells X) (panelShells X) 0
      ((sortByB (fun a b => strLeB a.name b.name) X.projects).map
        (fun p => GroupShell.mk p.id p.name (panelCollapsedFor X p.id))).length
      (GroupShell.mk NO_PROJECT_GROUP "No Project" (panelCollapsedFor X NO_PROJECT_GROUP))
      hget
    refine ⟨_, mem_listGroups_of_mem_panelGroups X _ hG, rfl, ?_⟩
    show r.id ∈ (((panelTodosSorted X).filter _).map (mkPanelItem X)).map (fun it => it.id)
    have hpred : (todoTargetIdx (panelShells X) ({ r with projectId := none } : TodoRow) ==
        some (0 + ((sortByB (fun a b => strLeB a.name b.name) X.projects).map
          (fun p => GroupShell.mk p.id p.name (panelCollapsedFor X p.id))).length)) =
        true := by
      rw [Nat.zero_add, htarget]
      exact beq_self_eq_true _
    have hmemfilter : ({ r with projectId := none } : TodoRow) ∈
        (panelTodosSorted X).filter
          (fun r2 => todoTargetIdx (panelShells X) r2 ==
            some (0 + ((sortByB (fun a b => strLeB a.name b.name) X.projects).map
              (fun p => GroupShell.mk p.id p.name (panelCollapsedFor X p.id))).length)) :=
      List.mem_filter.mpr ⟨hsorted, hpred⟩
    exact List.mem_map.mpr
      ⟨mkPanelItem X ({ r with projectId := none } : TodoRow),
        List.mem_map_of_mem _ hmemfilter, rfl⟩

/-- Project row owned by `u1`, for the C6 witness. -/
def c6Project : ProjectRow :=
  { id := "proj-1", name := "Alpha", description := none,
    createdAt := "2025-01-01T00:00:00.000Z", updatedAt := "2025-01-01T00:00:00.000Z",
    userId := some "u1" }

/-- Todo row of `u1` referencing `proj-1`, for the C6 witness. -/
def c6TodoRow : TodoRow :=
  { id := "todo-1", projectId := some "proj-1", title := "Kickoff deck",
    description := none, icon := "deck", status := "not_started",
    dueAt := "2025-02-10T09:00:00+01:00", date := "2025-02-10", time := "09:00",
    allDay := 0, reminderMinutes := none, createdAt := "2025-01-01T00:00:00.000Z",
    updatedAt := "2025-01-01T00:00:00.000Z", userId := some "u1" }

/-- Database with the project and its todo. -/
def c6Db : Db := { projects := [c6Project], todos := [c6TodoRow] }

/-- C6 witness: deleting `proj-1` keeps the todo row (project nulled)
and the todo shows up in the "No Project" group. -/
theorem c6_delete_project_moves_todos_witness :
    (projectsDelete "u1" "proj-1" c6Db).1 = true ∧
    (projectsDelete "u1" "proj-1" c6Db).2.todos.map (fun r => r.id) =
      c6Db.todos.map (fun r => r.id) ∧
    (listGroups (projectsDelete "u1" "proj-1" c6Db).2).any
      (fun g => g.id == NO_PROJECT_GROUP && g.items.any (fun it => it.id == "todo-1")) =
      true := by
  have h := c6_delete_project_moves_todos c6Db "u1" "proj-1" (by decide)
  refine ⟨h.1, h.2.1, ?_⟩
  obtain ⟨g, hgmem, hgid, hidmem⟩ := h.2.2.2.2 c6TodoRow (by decide) rfl rfl
  obtain ⟨it, hitmem, hitid⟩ := List.mem_map.mp hidmem
  refine List.any_eq_true.mpr ⟨g, hgmem, ?_⟩
  refine Bool.and_eq_true_iff.mpr ⟨beq_iff_eq.mpr hgid, ?_⟩
  exact List.any_eq_true.mpr ⟨it, hitmem, beq_iff_eq.mpr hitid⟩

end WorkExt
